import Mathlib

/-!
Verification development for the maco-gateway protocol engine
(`maco_gateway/ascon_transport.py`, `key_store.py`, `firebase_client.py`,
`main.py`), shallowly embedded in Lean 4.

Byte strings are modelled as `List Nat` (each element a byte value), Python
integers as `Nat` (with `Int` used where Python arithmetic can go negative),
Python sets as `Finset Nat`, and fallible code as `Except String`.
-/

/-- Big-endian interpretation of a byte string, as in
`int.from_bytes(nonce, byteorder="big")` and `struct.unpack(">Q", ...)`. -/
def bytesToNat (l : List Nat) : Nat :=
  l.foldl (fun a b => a * 256 + b) 0

/-- Big-endian serialization of a natural number to `len` bytes, as in
`struct.pack(">Q", device_id)` and `counter.to_bytes(16, byteorder="big")`.
Python raises for values that do not fit in `len` bytes; this model reduces
modulo the field width instead, and theorems restrict to in-range values. -/
def natToBytesBE (len n : Nat) : List Nat :=
  (List.range len).map (fun i => n / 256 ^ (len - 1 - i) % 256)

/-- Python slice `l[a:b]` for `0 ≤ a ≤ b` (as used with nonnegative indices in
`decrypt_frame`). -/
def pySlice (a b : Nat) (l : List Nat) : List Nat :=
  (l.take b).drop a

/-- Frame component size `DEVICE_ID_SIZE` from `AsconTransport`. -/
def DEVICE_ID_SIZE : Nat := 8

/-- Frame component size `NONCE_SIZE` from `AsconTransport`. -/
def NONCE_SIZE : Nat := 16

/-- Frame component size `TAG_SIZE` from `AsconTransport`. -/
def TAG_SIZE : Nat := 16

/-- Key size `KEY_SIZE` shared by `AsconTransport` and `KeyStore`. -/
def KEY_SIZE : Nat := 16

/-- Minimum frame size `MIN_FRAME_SIZE = DEVICE_ID_SIZE + NONCE_SIZE + TAG_SIZE`. -/
def MIN_FRAME_SIZE : Nat := DEVICE_ID_SIZE + NONCE_SIZE + TAG_SIZE

/-- Modelled from the spec: mixing fold used by the stand-in for the external
`ascon` library (the Ascon-128 cipher itself is a pip dependency, not part of
this repository). Any deterministic mixing function suffices for the
properties verified here. -/
def asconMix (l : List Nat) : Nat :=
  l.foldl (fun a b => (a * 257 + b + 1) % 4294967291) 7

/-- Modelled from the spec: keystream of the stand-in AEAD; one byte per
plaintext byte, a function of key and nonce. -/
def asconKeystream (key nonce : List Nat) (len : Nat) : List Nat :=
  (List.range len).map (fun i => (asconMix key + asconMix nonce + i) % 256)

/-- Modelled from the spec: 16-byte authentication tag of the stand-in AEAD,
a function of key, nonce, associated data and plaintext, as the spec requires
(the tag authenticates ciphertext and associated data). -/
def asconTag (key nonce ad pt : List Nat) : List Nat :=
  natToBytesBE 16 (asconMix (key ++ nonce ++ [ad.length] ++ ad ++ pt))

/-- Modelled from the spec: `ascon.encrypt` — returns ciphertext (same length
as the plaintext) followed by the 16-byte tag. -/
def asconEncrypt (key nonce ad pt : List Nat) : List Nat :=
  List.zipWith (fun a b => a ^^^ b) pt (asconKeystream key nonce pt.length) ++
    asconTag key nonce ad pt

/-- Modelled from the spec: `ascon.decrypt` — splits off the trailing 16-byte
tag, recovers the plaintext, recomputes the tag and returns `none` on
authentication failure (never partial plaintext). -/
def asconDecrypt (key nonce ad c : List Nat) : Option (List Nat) :=
  if c.length < 16 then none
  else
    let ct := c.take (c.length - 16)
    let tag := c.drop (c.length - 16)
    let pt := List.zipWith (fun a b => a ^^^ b) ct (asconKeystream key nonce ct.length)
    if asconTag key nonce ad pt = tag then some pt else none

/-- Decrypted frame, as the `AsconFrame` dataclass. -/
structure AsconFrame where
  device_id : Nat
  nonce : List Nat
  payload : List Nat
deriving DecidableEq

/-- Embedding of `AsconTransport.encrypt_frame`. The Python function returns a
`(frame, error)` pair with exactly one component set; this is modelled as
`Except String (List Nat)`. -/
def encrypt_frame (device_id : Nat) (nonce payload key : List Nat) :
    Except String (List Nat) :=
  if nonce.length ≠ NONCE_SIZE then Except.error "Invalid nonce size"
  else if key.length ≠ KEY_SIZE then Except.error "Invalid key size"
  else
    let device_id_bytes := natToBytesBE DEVICE_ID_SIZE device_id
    Except.ok (device_id_bytes ++ nonce ++ asconEncrypt key nonce device_id_bytes payload)

/-- Embedding of `AsconTransport.decrypt_frame`. Parses the header, slices
ciphertext and tag exactly as `frame_data[24:-16]` and `frame_data[-16:]`,
and opens the AEAD with the 8 device-id bytes as associated data. -/
def decrypt_frame (frame_data key : List Nat) : Except String AsconFrame :=
  if frame_data.length < MIN_FRAME_SIZE then Except.error "Frame too short"
  else if key.length ≠ KEY_SIZE then Except.error "Invalid key size"
  else
    let device_id := bytesToNat (frame_data.take DEVICE_ID_SIZE)
    let nonce := pySlice DEVICE_ID_SIZE (DEVICE_ID_SIZE + NONCE_SIZE) frame_data
    let encrypted_payload :=
      pySlice (DEVICE_ID_SIZE + NONCE_SIZE) (frame_data.length - TAG_SIZE) frame_data
    let tag := frame_data.drop (frame_data.length - TAG_SIZE)
    let ad := frame_data.take DEVICE_ID_SIZE
    match asconDecrypt key nonce ad (encrypted_payload ++ tag) with
    | none => Except.error "ASCON decryption failed: authentication error"
    | some plaintext =>
        Except.ok { device_id := device_id, nonce := nonce, payload := plaintext }

/-- Embedding of `AsconTransport.parse_device_id`. -/
def parse_device_id (frame_data : List Nat) : Option Nat :=
  if frame_data.length < DEVICE_ID_SIZE then none
  else some (bytesToNat (frame_data.take DEVICE_ID_SIZE))

/-- State of a `NonceTracker` (`_window_size`, `_highest_nonce`, `_seen_nonces`). -/
structure NonceTracker where
  window_size : Nat
  highest_nonce : Nat
  seen_nonces : Finset Nat
deriving DecidableEq

/-- Initial tracker state from `NonceTracker.__init__` (default window 64). -/
def NonceTracker.init (window_size : Nat) : NonceTracker :=
  { window_size := window_size, highest_nonce := 0, seen_nonces := ∅ }

/-- Outcome of one `check_and_update` call; the branch taken is observable in
the source through the distinct log messages. -/
inductive NonceCheck where
  | accepted
  | tooOld
  | replay
deriving DecidableEq

/-- Embedding of `NonceTracker.check_and_update`, keeping the rejection
reason. The too-old comparison `nonce_value < highest - window_size` is over
Python integers and is therefore taken in `Int`. -/
def check_and_update_r (t : NonceTracker) (nonce : List Nat) :
    NonceCheck × NonceTracker :=
  let nonce_value := bytesToNat nonce
  if (nonce_value : Int) < (t.highest_nonce : Int) - (t.window_size : Int) then
    (NonceCheck.tooOld, t)
  else if nonce_value ∈ t.seen_nonces then
    (NonceCheck.replay, t)
  else
    let seen1 := insert nonce_value t.seen_nonces
    if t.highest_nonce < nonce_value then
      (NonceCheck.accepted,
        { t with highest_nonce := nonce_value,
                 seen_nonces :=
                   seen1.filter (fun n => (nonce_value : Int) - (t.window_size : Int) ≤ (n : Int)) })
    else
      (NonceCheck.accepted, { t with seen_nonces := seen1 })

/-- Boolean interface of `check_and_update` (what the caller observes). -/
def check_and_update (t : NonceTracker) (nonce : List Nat) : Bool × NonceTracker :=
  let r := check_and_update_r t nonce
  (decide (r.1 = NonceCheck.accepted), r.2)

/-- Folding a sequence of `check_and_update` calls over a tracker. -/
def tracker_run (t : NonceTracker) (ns : List (List Nat)) : NonceTracker :=
  ns.foldl (fun s n => (check_and_update s n).2) t

lemma length_natToBytesBE (len n : Nat) : (natToBytesBE len n).length = len := by
  simp [natToBytesBE]

lemma length_asconKeystream (key nonce : List Nat) (len : Nat) :
    (asconKeystream key nonce len).length = len := by
  simp [asconKeystream]

lemma length_asconTag (key nonce ad pt : List Nat) :
    (asconTag key nonce ad pt).length = 16 := by
  simp [asconTag, length_natToBytesBE]

lemma take_append_len {α : Type} (l1 l2 : List α) (n : Nat) (h : l1.length = n) :
    (l1 ++ l2).take n = l1 := by
  subst h; exact List.take_left l1 l2

lemma drop_append_len {α : Type} (l1 l2 : List α) (n : Nat) (h : l1.length = n) :
    (l1 ++ l2).drop n = l2 := by
  subst h; exact List.drop_left l1 l2

lemma take_append_add {α : Type} (l1 l2 : List α) (n k : Nat) (h : l1.length = n) :
    (l1 ++ l2).take (n + k) = l1 ++ l2.take k := by
  subst h
  rw [List.take_append_eq_append_take]
  simp

lemma zipWith_xor_cancel (p s : List Nat) (h : p.length ≤ s.length) :
    List.zipWith (fun a b => a ^^^ b) (List.zipWith (fun a b => a ^^^ b) p s) s = p := by
  induction p generalizing s with
  | nil => simp
  | cons a p ih =>
    cases s with
    | nil => simp at h
    | cons b s =>
      simp only [List.zipWith_cons_cons]
      rw [ih s (by simpa using h)]
      simp [Nat.xor_cancel_right]

lemma bytesToNat_natToBytesBE8 (d : Nat) (h : d < 2 ^ 64) :
    bytesToNat (natToBytesBE 8 d) = d := by
  simp [natToBytesBE, bytesToNat, List.range_succ]
  omega

lemma encrypt_frame_ok (d : Nat) (nonce payload key : List Nat)
    (hn : nonce.length = NONCE_SIZE) (hk : key.length = KEY_SIZE) :
    encrypt_frame d nonce payload key =
      Except.ok (natToBytesBE DEVICE_ID_SIZE d ++ nonce ++
        asconEncrypt key nonce (natToBytesBE DEVICE_ID_SIZE d) payload) := by
  simp [encrypt_frame, hn, hk]

/-- Claim C1: decrypting the output of `encrypt_frame` with the same 16-byte
key recovers exactly the 64-bit device id, the 16-byte nonce and the payload,
with no error. -/
theorem encrypt_decrypt_roundtrip (d : Nat) (nonce payload key : List Nat)
    (hd : d < 2 ^ 64) (hn : nonce.length = NONCE_SIZE) (hk : key.length = KEY_SIZE) :
    ∃ fr, encrypt_frame d nonce payload key = Except.ok fr ∧
      decrypt_frame fr key =
        Except.ok { device_id := d, nonce := nonce, payload := payload } := by
  have hns : NONCE_SIZE = 16 := rfl
  have hks : KEY_SIZE = 16 := rfl
  set idb := natToBytesBE DEVICE_ID_SIZE d with hidb_def
  have hidb : idb.length = 8 := length_natToBytesBE _ _
  set ks := asconKeystream key nonce payload.length with hks_def
  have hksl : ks.length = payload.length := length_asconKeystream _ _ _
  set ct := List.zipWith (fun a b => a ^^^ b) payload ks with hct_def
  have hct : ct.length = payload.length := by
    rw [hct_def, List.length_zipWith, hksl, Nat.min_self]
  set tg := asconTag key nonce idb payload with htg_def
  have htg : tg.length = 16 := length_asconTag _ _ _ _
  set fr := idb ++ nonce ++ (ct ++ tg) with hfr_def
  have henc : asconEncrypt key nonce idb payload = ct ++ tg := rfl
  refine ⟨fr, ?_, ?_⟩
  · rw [encrypt_frame_ok d nonce payload key hn hk, hfr_def, henc]
  · have hfrlen : fr.length = payload.length + 40 := by
      simp [hfr_def, hidb, hn, hct, htg, hns]
      omega
    have htake8 : fr.take 8 = idb := by
      rw [hfr_def, List.append_assoc]
      exact take_append_len _ _ _ hidb
    have htake24 : fr.take 24 = idb ++ nonce := by
      rw [hfr_def, List.append_assoc, show (24 : Nat) = 8 + 16 from rfl,
        take_append_add _ _ _ _ hidb, take_append_len _ _ _ (by rw [hn, hns])]
    have hnonce : pySlice DEVICE_ID_SIZE (DEVICE_ID_SIZE + NONCE_SIZE) fr = nonce := by
      show (fr.take 24).drop 8 = nonce
      rw [htake24, drop_append_len _ _ _ hidb]
    have hfr24 : fr = (idb ++ nonce) ++ (ct ++ tg) := by
      simp [hfr_def, List.append_assoc]
    have hlen24 : (idb ++ nonce).length = 24 := by
      simp [hidb, hn, hns]
    have hpayload_slice :
        pySlice (DEVICE_ID_SIZE + NONCE_SIZE) (fr.length - TAG_SIZE) fr = ct := by
      show (fr.take (fr.length - 16)).drop 24 = ct
      have h1 : fr.length - 16 = 24 + payload.length := by omega
      rw [h1, hfr24, take_append_add _ _ _ _ hlen24,
        take_append_len _ _ _ hct, drop_append_len _ _ _ hlen24]
    have htag_slice : fr.drop (fr.length - TAG_SIZE) = tg := by
      show fr.drop (fr.length - 16) = tg
      have h1 : fr.length - 16 = 24 + payload.length := by omega
      have h2 : fr = ((idb ++ nonce) ++ ct) ++ tg := by
        simp [hfr_def, List.append_assoc]
      rw [h1, h2]
      exact drop_append_len _ _ _ (by simp [hlen24, hct]; omega)
    have hdec : asconDecrypt key nonce idb (ct ++ tg) = some payload := by
      have hclen : (ct ++ tg).length = payload.length + 16 := by
        simp [hct, htg]
      rw [asconDecrypt]
      rw [if_neg (by omega)]
      have hctake : (ct ++ tg).take ((ct ++ tg).length - 16) = ct := by
        rw [hclen, Nat.add_sub_cancel, take_append_len _ _ _ hct]
      have hcdrop : (ct ++ tg).drop ((ct ++ tg).length - 16) = tg := by
        rw [hclen, Nat.add_sub_cancel, drop_append_len _ _ _ hct]
      simp only [hctake, hcdrop, hct]
      rw [hct_def, ← hks_def, zipWith_xor_cancel payload ks (by omega)]
      rw [← htg_def, if_pos rfl]
    have hms : MIN_FRAME_SIZE = 40 := rfl
    rw [decrypt_frame]
    rw [if_neg (by omega), if_neg (by simp [hk])]
    simp only [show fr.take DEVICE_ID_SIZE = idb from htake8, hnonce,
      hpayload_slice, htag_slice, hdec]
    rw [hidb_def, show DEVICE_ID_SIZE = 8 from rfl, bytesToNat_natToBytesBE8 d hd]

/-- Witness for C1 at a concrete device id, nonce, payload and key. -/
theorem encrypt_decrypt_roundtrip_witness :
    ∃ fr, encrypt_frame 1 (natToBytesBE 16 2) [1, 2, 3] (natToBytesBE 16 3) =
        Except.ok fr ∧
      decrypt_frame fr (natToBytesBE 16 3) =
        Except.ok { device_id := 1, nonce := natToBytesBE 16 2, payload := [1, 2, 3] } :=
  encrypt_decrypt_roundtrip 1 (natToBytesBE 16 2) [1, 2, 3] (natToBytesBE 16 3)
    (by decide) (by decide) (by decide)

lemma check_and_update_snd (t : NonceTracker) (n : List Nat) :
    (check_and_update t n).2 = (check_and_update_r t n).2 := rfl

lemma tracker_run_nil (t : NonceTracker) : tracker_run t [] = t := rfl

lemma tracker_run_cons (t : NonceTracker) (n : List Nat) (ns : List (List Nat)) :
    tracker_run t (n :: ns) = tracker_run ((check_and_update t n).2) ns := rfl

/-- Soundness invariant of a tracker reachable from the initial state: the
highest value is recorded in the seen set, except in the pristine state where
nothing has been recorded and the highest is still the initial 0. -/
def TrackerSound (t : NonceTracker) : Prop :=
  t.highest_nonce ∈ t.seen_nonces ∨ (t.seen_nonces = ∅ ∧ t.highest_nonce = 0)

lemma trackerSound_init (w : Nat) : TrackerSound (NonceTracker.init w) :=
  Or.inr ⟨rfl, rfl⟩

lemma trackerSound_step (t : NonceTracker) (n : List Nat) (h : TrackerSound t) :
    TrackerSound (check_and_update t n).2 := by
  rw [check_and_update_snd]
  simp only [check_and_update_r]
  split_ifs with h1 h2 h3
  all_goals dsimp only
  · exact h
  · exact h
  · left
    rw [Finset.mem_filter]
    refine ⟨Finset.mem_insert_self _ _, ?_⟩
    show (bytesToNat n : Int) - (t.window_size : Int) ≤ (bytesToNat n : Int)
    omega
  · cases h with
    | inl hm =>
        left
        simpa using Or.inr hm
    | inr he =>
        left
        have hv : bytesToNat n = t.highest_nonce := by omega
        simp [hv]

lemma trackerSound_run (ns : List (List Nat)) (t : NonceTracker) (h : TrackerSound t) :
    TrackerSound (tracker_run t ns) := by
  induction ns generalizing t with
  | nil => exact h
  | cons n ns ih =>
      rw [tracker_run_cons]
      exact ih _ (trackerSound_step t n h)

lemma reject_at_highest (t : NonceTracker) (nonce : List Nat)
    (hmem : t.highest_nonce ∈ t.seen_nonces)
    (hv : bytesToNat nonce = t.highest_nonce) :
    (check_and_update t nonce).1 = false := by
  simp only [check_and_update, check_and_update_r, hv]
  rw [if_neg (by omega), if_pos hmem]
  rfl

/-- Claim C7 counterexample: in the initial tracker state the highest value is
0, and a 16-byte all-zero nonce — whose big-endian value 0 equals the current
highest — is accepted by `check_and_update`, not rejected. -/
theorem zero_nonce_initially_accepted :
    bytesToNat (List.replicate 16 0) = (NonceTracker.init 64).highest_nonce ∧
    (check_and_update (NonceTracker.init 64) (List.replicate 16 0)).1 = true := by
  decide

/-- Claim C7 (amended): in every tracker state reachable from the initial
state in which at least one nonce has been recorded (the seen set is
nonempty), a nonce whose big-endian value equals the current highest value is
rejected. In the pristine initial state, where nothing has been recorded, a
zero-valued nonce is instead accepted. -/
theorem equal_to_highest_rejected_once_recorded (w : Nat) (ns : List (List Nat))
    (nonce : List Nat)
    (hne : (tracker_run (NonceTracker.init w) ns).seen_nonces.Nonempty)
    (hv : bytesToNat nonce = (tracker_run (NonceTracker.init w) ns).highest_nonce) :
    (check_and_update (tracker_run (NonceTracker.init w) ns) nonce).1 = false := by
  have hs := trackerSound_run ns (NonceTracker.init w) (trackerSound_init w)
  cases hs with
  | inl hmem => exact reject_at_highest _ _ hmem hv
  | inr he =>
      rw [he.1] at hne
      exact absurd hne (by simp)

/-- Witness for the amended C7 at window 64 after recording value 5. -/
theorem equal_to_highest_rejected_once_recorded_witness :
    (tracker_run (NonceTracker.init 64) [natToBytesBE 16 5]).seen_nonces.Nonempty ∧
    (check_and_update (tracker_run (NonceTracker.init 64) [natToBytesBE 16 5])
      (natToBytesBE 16 5)).1 = false :=
  ⟨by decide,
    equal_to_highest_rejected_once_recorded 64 [natToBytesBE 16 5]
      (natToBytesBE 16 5) (by decide) (by decide)⟩

/-- Claim C2 counterexample: in the scenario of the claim (window 64; submit
100, 100 again, 35, 36, 150), the final re-submission of 100 is rejected by
the set-membership branch (`replay`), not by the too-old branch the claim
names: 100 is not below the new window bound 150 − 64 = 86. -/
theorem replay_after_150_not_too_old :
    (check_and_update_r
      (tracker_run (NonceTracker.init 64)
        [natToBytesBE 16 100, natToBytesBE 16 100, natToBytesBE 16 35,
         natToBytesBE 16 36, natToBytesBE 16 150])
      (natToBytesBE 16 100)).1 ≠ NonceCheck.tooOld ∧
    (check_and_update_r
      (tracker_run (NonceTracker.init 64)
        [natToBytesBE 16 100, natToBytesBE 16 100, natToBytesBE 16 35,
         natToBytesBE 16 36, natToBytesBE 16 150])
      (natToBytesBE 16 100)).1 = NonceCheck.replay := by
  decide

/-- Claim C2 (amended): with window 64 from the initial state, nonce 100 is
accepted; re-submitting 100 is rejected as a replay; 35 is rejected as too
old; 36 is accepted; 150 is accepted; re-submitting 100 is then rejected
again — as a replay (100 is still in the seen window), not as too old. -/
theorem replay_window_scenario :
    (let s0 := NonceTracker.init 64
     let r1 := check_and_update_r s0 (natToBytesBE 16 100)
     let r2 := check_and_update_r r1.2 (natToBytesBE 16 100)
     let r3 := check_and_update_r r2.2 (natToBytesBE 16 35)
     let r4 := check_and_update_r r3.2 (natToBytesBE 16 36)
     let r5 := check_and_update_r r4.2 (natToBytesBE 16 150)
     let r6 := check_and_update_r r5.2 (natToBytesBE 16 100)
     [r1.1, r2.1, r3.1, r4.1, r5.1, r6.1]) =
    [NonceCheck.accepted, NonceCheck.replay, NonceCheck.tooOld,
     NonceCheck.accepted, NonceCheck.accepted, NonceCheck.replay] := by
  decide

lemma window_size_step (t : NonceTracker) (n : List Nat) :
    ((check_and_update t n).2).window_size = t.window_size := by
  rw [check_and_update_snd]
  simp only [check_and_update_r]
  split_ifs <;> rfl

lemma window_size_run (ns : List (List Nat)) (t : NonceTracker) :
    (tracker_run t ns).window_size = t.window_size := by
  induction ns generalizing t with
  | nil => rfl
  | cons n ns ih => rw [tracker_run_cons, ih, window_size_step]

lemma highest_step_mono (t : NonceTracker) (n : List Nat) :
    t.highest_nonce ≤ ((check_and_update t n).2).highest_nonce := by
  rw [check_and_update_snd]
  simp only [check_and_update_r]
  split_ifs with h1 h2 h3
  · exact le_refl _
  · exact le_refl _
  · exact le_of_lt h3
  · exact le_refl _

lemma highest_run_mono (ns : List (List Nat)) (t : NonceTracker) :
    t.highest_nonce ≤ (tracker_run t ns).highest_nonce := by
  induction ns generalizing t with
  | nil => exact le_refl _
  | cons n ns ih =>
      rw [tracker_run_cons]
      exact le_trans (highest_step_mono t n) (ih _)

/-- Window invariant: every recorded value is at most the highest value, and
at least the highest value minus the window size. -/
def TrackerBound (t : NonceTracker) : Prop :=
  ∀ n ∈ t.seen_nonces, n ≤ t.highest_nonce ∧ t.highest_nonce ≤ n + t.window_size

lemma trackerBound_init (w : Nat) : TrackerBound (NonceTracker.init w) := by
  intro n hn
  simp [NonceTracker.init] at hn

lemma trackerBound_step (t : NonceTracker) (m : List Nat) (h : TrackerBound t) :
    TrackerBound ((check_and_update t m).2) := by
  rw [check_and_update_snd]
  simp only [check_and_update_r]
  split_ifs with h1 h2 h3
  · exact h
  · exact h
  · intro n hn
    show n ≤ bytesToNat m ∧ bytesToNat m ≤ n + t.window_size
    rw [Finset.mem_filter, Finset.mem_insert] at hn
    obtain ⟨hm, hcut⟩ := hn
    have hcut2 : (bytesToNat m : Int) - (t.window_size : Int) ≤ (n : Int) := hcut
    cases hm with
    | inl he => omega
    | inr hs =>
        have := (h n hs).1
        omega
  · intro n hn
    show n ≤ t.highest_nonce ∧ t.highest_nonce ≤ n + t.window_size
    rw [Finset.mem_insert] at hn
    cases hn with
    | inl he =>
        have hno : ¬ ((bytesToNat m : Int) < (t.highest_nonce : Int) - (t.window_size : Int)) := h1
        omega
    | inr hs => exact h n hs

lemma trackerBound_run (ns : List (List Nat)) (t : NonceTracker) (h : TrackerBound t) :
    TrackerBound (tracker_run t ns) := by
  induction ns generalizing t with
  | nil => exact h
  | cons n ns ih =>
      rw [tracker_run_cons]
      exact ih _ (trackerBound_step t n h)

lemma trackerBound_card (t : NonceTracker) (h : TrackerBound t) :
    t.seen_nonces.card ≤ t.window_size + 1 := by
  have hsub : t.seen_nonces ⊆
      Finset.Icc (t.highest_nonce - t.window_size) t.highest_nonce := by
    intro n hn
    have hb := h n hn
    rw [Finset.mem_Icc]
    omega
  calc t.seen_nonces.card
      ≤ (Finset.Icc (t.highest_nonce - t.window_size) t.highest_nonce).card :=
        Finset.card_le_card hsub
    _ = t.highest_nonce + 1 - (t.highest_nonce - t.window_size) := Nat.card_Icc _ _
    _ ≤ t.window_size + 1 := by omega

/-- Claim C10: after any call sequence from the initial state, every recorded
value lies between highest − windowSize and highest, the seen set holds at
most windowSize + 1 values, and the highest value never decreases under
further calls. -/
theorem tracker_window_invariant (w : Nat) (ns : List (List Nat)) :
    (∀ n ∈ (tracker_run (NonceTracker.init w) ns).seen_nonces,
        n ≤ (tracker_run (NonceTracker.init w) ns).highest_nonce ∧
        (tracker_run (NonceTracker.init w) ns).highest_nonce ≤ n + w) ∧
    (tracker_run (NonceTracker.init w) ns).seen_nonces.card ≤ w + 1 ∧
    ∀ ms, (tracker_run (NonceTracker.init w) ns).highest_nonce ≤
        (tracker_run (tracker_run (NonceTracker.init w) ns) ms).highest_nonce := by
  have hw : (tracker_run (NonceTracker.init w) ns).window_size = w :=
    window_size_run ns (NonceTracker.init w)
  have hb := trackerBound_run ns (NonceTracker.init w) (trackerBound_init w)
  refine ⟨?_, ?_, ?_⟩
  · intro n hn
    have := hb n hn
    rw [hw] at this
    exact this
  · have := trackerBound_card _ hb
    rw [hw] at this
    exact this
  · intro ms
    exact highest_run_mono ms _

/-- Witness for C10 with window 64 after recording value 5. -/
theorem tracker_window_invariant_witness :
    5 ∈ (tracker_run (NonceTracker.init 64) [natToBytesBE 16 5]).seen_nonces ∧
    (5 ≤ (tracker_run (NonceTracker.init 64) [natToBytesBE 16 5]).highest_nonce ∧
      (tracker_run (NonceTracker.init 64) [natToBytesBE 16 5]).highest_nonce ≤ 5 + 64) :=
  ⟨by decide, (tracker_window_invariant 64 [natToBytesBE 16 5]).1 5 (by decide)⟩

/-- Python value as passed to `KeyStore.get_device_key`: the store's own
declared interface takes `bytes`, while `main.py` passes the `int` parsed by
`struct.unpack`. The dynamic type of the argument decides whether the bytes
concatenation in the key derivation raises `TypeError`. -/
inductive PyVal where
  | int (n : Nat)
  | bytes (b : List Nat)
deriving DecidableEq

/-- Python `bytes + x`: concatenation when `x` is `bytes`, `TypeError`
otherwise (as raised by `self._master_key + device_id` on an `int`). -/
def pyBytesAdd (a : List Nat) : PyVal → Except String (List Nat)
  | PyVal.bytes b => Except.ok (a ++ b)
  | PyVal.int _ => Except.error "TypeError: cannot concatenate int to bytes"

/-- Embedding of `KeyStore.get_device_key`, parameterised over the external
hash (`ascon.hash`, falling back to `hashlib.sha256`; both are library code
outside this repository). The cache lookup itself accepts any Python value;
only the derivation path concatenates `master_key + device_id`. -/
def get_device_key (kdfHash : List Nat → List Nat) (master_key : List Nat)
    (key_cache : List (PyVal × List Nat)) (device_id : PyVal) :
    Except String (List Nat) :=
  match key_cache.find? (fun e => decide (e.1 = device_id)) with
  | some e => Except.ok e.2
  | none =>
      match pyBytesAdd master_key device_id with
      | Except.error msg => Except.error msg
      | Except.ok input_data => Except.ok ((kdfHash input_data).take KEY_SIZE)

/-- Per-connection state from `ClientConnection.__init__`: unbound device
identity, fresh nonce tracker with the default window 64, outbound response
counter 0. -/
structure Conn where
  device_id : Option Nat
  device_key : Option (List Nat)
  nonce_tracker : NonceTracker
  response_nonce_counter : Nat
deriving DecidableEq

/-- Fresh connection state (`ClientConnection.__init__`). -/
def Conn.init : Conn :=
  { device_id := none, device_key := none,
    nonce_tracker := NonceTracker.init 64, response_nonce_counter := 0 }

/-- Embedding of `ClientConnection._send_response`, parameterised over the
external HDLC encoder (`pw_hdlc.encode.frame`). Returns the updated
connection state and the frame written to the socket, if any. The outbound
counter is incremented before encryption, exactly as in the source. -/
def send_response (hdlc : List Nat → List Nat) (conn : Conn)
    (response_data : List Nat) : Conn × Option (List Nat) :=
  match conn.device_key, conn.device_id with
  | some key, some d =>
      let hdlc_data := hdlc response_data
      let counter := conn.response_nonce_counter + 1
      let conn1 := { conn with response_nonce_counter := counter }
      match encrypt_frame d (natToBytesBE 16 counter) hdlc_data key with
      | Except.error _ => (conn1, none)
      | Except.ok fr => (conn1, some fr)
  | _, _ => (conn, none)

/-- Sequential `_send_response` calls for each response produced from one
decrypted payload, collecting the frames actually written. -/
def send_all (hdlc : List Nat → List Nat) (conn : Conn) :
    List (List Nat) → Conn × List (List Nat)
  | [] => (conn, [])
  | r :: rest =>
      let s := send_response hdlc conn r
      let s2 := send_all hdlc s.1 rest
      (s2.1, s.2.toList ++ s2.2)

/-- Outcome of one iteration of the inner frame-processing loop of
`ClientConnection._process_messages`. -/
inductive StepResult where
  | next (conn : Conn) (buffer : List Nat) (sent : List (List Nat))
  | more (conn : Conn) (buffer : List Nat)
  | closed (conn : Conn)
  | raised (msg : String)

/-- One iteration of the inner `while len(buffer) >= MIN_FRAME_SIZE` loop of
`_process_messages`: parse the cleartext device id; bind it (fetching the key
from the KeyStore — `main.py` passes the parsed `int`) or check it against
the bound id, terminating the connection on mismatch; decrypt the whole
buffer, resynchronising by one byte on failure; check the nonce, dropping
`MIN_FRAME_SIZE` bytes on rejection; otherwise consume the frame and process
its payload, sending any responses. The KeyStore cache is empty at the only
call that can reach it (the first frame of a connection binds once). The
external HDLC-decode/RPC pipeline of `_process_hdlc_payload` is the parameter
`respond`, giving the response packets produced from one decrypted payload. -/
def process_step (kdfHash : List Nat → List Nat)
    (respond : List Nat → List (List Nat)) (hdlc : List Nat → List Nat)
    (master_key : List Nat) (conn : Conn) (buffer : List Nat) : StepResult :=
  if buffer.length < MIN_FRAME_SIZE then StepResult.more conn buffer
  else
    match parse_device_id buffer with
    | none => StepResult.more conn buffer
    | some deviceId =>
      let bound : Except StepResult Conn :=
        match conn.device_id with
        | none =>
            match get_device_key kdfHash master_key [] (PyVal.int deviceId) with
            | Except.error msg => Except.error (StepResult.raised msg)
            | Except.ok key =>
                Except.ok { conn with device_id := some deviceId,
                                      device_key := some key }
        | some d =>
            if d = deviceId then Except.ok conn
            else Except.error (StepResult.closed conn)
      match bound with
      | Except.error r => r
      | Except.ok conn1 =>
        match conn1.device_key with
        | none => StepResult.raised "TypeError: object of type NoneType has no length"
        | some key =>
          match decrypt_frame buffer key with
          | Except.error _ => StepResult.next conn1 (buffer.drop 1) []
          | Except.ok frame =>
            let c := check_and_update conn1.nonce_tracker frame.nonce
            let conn2 := { conn1 with nonce_tracker := c.2 }
            if c.1 then
              let frame_size :=
                DEVICE_ID_SIZE + NONCE_SIZE + frame.payload.length + TAG_SIZE
              let s := send_all hdlc conn2 (respond frame.payload)
              StepResult.next s.1 (buffer.drop frame_size) s.2
            else
              StepResult.next conn2 (buffer.drop MIN_FRAME_SIZE) []

/-- Result of running the inner loop on one buffered chunk until it exits:
`more` awaits further data with the remaining buffer, `closed` is the
device-id-mismatch `return` (the connection is then closed by `handle`),
`raised` is an exception propagating out of `_process_messages` (also closing
the connection), and `fuelOut` is unreachable for sufficient fuel. -/
inductive LoopResult where
  | more (conn : Conn) (buffer : List Nat) (sent : List (List Nat))
  | closed (conn : Conn) (sent : List (List Nat))
  | raised (msg : String) (sent : List (List Nat))
  | fuelOut (sent : List (List Nat))
deriving DecidableEq

/-- Fuel-indexed unfolding of the inner loop; every continuing iteration
consumes at least one buffer byte, so `buffer.length + 1` fuel suffices. -/
def process_loop (kdfHash : List Nat → List Nat)
    (respond : List Nat → List (List Nat)) (hdlc : List Nat → List Nat)
    (master_key : List Nat) :
    Nat → Conn → List Nat → List (List Nat) → LoopResult
  | 0, _, _, sent => LoopResult.fuelOut sent
  | fuel + 1, conn, buffer, sent =>
      match process_step kdfHash respond hdlc master_key conn buffer with
      | StepResult.more c b => LoopResult.more c b sent
      | StepResult.closed c => LoopResult.closed c sent
      | StepResult.raised m => LoopResult.raised m sent
      | StepResult.next c b newSent =>
          process_loop kdfHash respond hdlc master_key fuel c b (sent ++ newSent)

/-- Processing of one received chunk by `_process_messages` after it is
appended to the connection buffer: run the inner loop to completion. -/
def process_chunk (kdfHash : List Nat → List Nat)
    (respond : List Nat → List (List Nat)) (hdlc : List Nat → List Nat)
    (master_key : List Nat) (conn : Conn) (buffer : List Nat) : LoopResult :=
  process_loop kdfHash respond hdlc master_key (buffer.length + 1) conn buffer []

/-- Frames written to the socket during one chunk. -/
def LoopResult.sent : LoopResult → List (List Nat)
  | LoopResult.more _ _ s => s
  | LoopResult.closed _ s => s
  | LoopResult.raised _ s => s
  | LoopResult.fuelOut s => s

/-- Remaining buffer when the loop exits normally awaiting more data. -/
def LoopResult.buf : LoopResult → List Nat
  | LoopResult.more _ b _ => b
  | _ => []

/-- Connection state carried out of the loop, if the connection survived. -/
def LoopResult.connOut : LoopResult → Option Conn
  | LoopResult.more c _ _ => some c
  | _ => none

/-- Whether the loop exited awaiting more data (connection still open). -/
def LoopResult.isMore : LoopResult → Bool
  | LoopResult.more _ _ _ => true
  | _ => false

/-- Whether the loop terminated the connection via the device-id-mismatch
`return`. -/
def LoopResult.isClosed : LoopResult → Bool
  | LoopResult.closed _ _ => true
  | _ => false

/-- Whether the loop ended with a propagating Python exception. -/
def LoopResult.isRaised : LoopResult → Bool
  | LoopResult.raised _ _ => true
  | _ => false

/-- Stand-in for the external KDF hash in concrete scenarios; its output is
never reached in the evaluated executions. -/
def dummyHash (_x : List Nat) : List Nat := List.replicate 32 1

/-- Stand-in for the external HDLC-decode/RPC pipeline in concrete scenarios:
each decrypted payload produces one response packet (as the gateway answers a
request frame with one response). -/
def echoRespond (p : List Nat) : List (List Nat) := [p]

/-- Concrete 16-byte device key for scenarios. -/
def demoKey : List Nat := List.replicate 16 0

/-- Concrete 16-byte master key for scenarios. -/
def demoMaster : List Nat := List.replicate 16 0

/-- Successfully encrypted frame bytes of an `encrypt_frame` call. -/
def exFrame (e : Except String (List Nat)) : List Nat :=
  match e with
  | Except.ok f => f
  | Except.error _ => []

/-- Corrupt the last byte of a frame (flips the final tag byte), producing a
frame that fails AEAD authentication. -/
def corruptLast (l : List Nat) : List Nat :=
  l.dropLast ++ [(l.getLast?.getD 0 + 1) % 256]

/-- Bound connection state used by the frame-processing scenarios: device id
1 bound with `demoKey`, fresh nonce tracker, counter 0. -/
def boundConn : Conn :=
  { device_id := some 1, device_key := some demoKey,
    nonce_tracker := NonceTracker.init 64, response_nonce_counter := 0 }

/-- Claim C3 (code bug): on an unbound connection, processing the first
complete frame does not bind the device and fetch its key — the call
`self._key_store.get_device_key(device_id)` in `main.py` passes the `int`
parsed from the frame to a `KeyStore` whose derivation computes
`self._master_key + device_id`, raising `TypeError`, so the exception
propagates out of `_process_messages` and the connection dies instead of
transitioning to BOUND and decrypting the frame. -/
theorem unbound_bind_raises_type_error :
    process_chunk dummyHash echoRespond id demoMaster Conn.init
        (exFrame (encrypt_frame 1 (natToBytesBE 16 1) [] demoKey)) =
      LoopResult.raised "TypeError: cannot concatenate int to bytes" [] := by
  decide

set_option maxRecDepth 40000 in
/-- Claim C5 (code bug): a 41-byte frame (1-byte payload) whose nonce is
rejected as a replay is not fully consumed — the code drops only
`MIN_FRAME_SIZE` = 40 bytes, leaving 1 stale ciphertext byte in the buffer —
and a subsequent frame with a fresh nonce is then parsed misaligned, so the
device-id check closes the connection with no response, contradicting the
claimed full consumption and continued responsiveness. The same frame is
processed and answered when its nonce is fresh, so the scenario is a genuine
replay drop. -/
theorem nonce_reject_consumes_only_min_frame :
    (let conn : Conn :=
       { device_id := some 1, device_key := some demoKey,
         nonce_tracker := (check_and_update (NonceTracker.init 64) (natToBytesBE 16 1)).2,
         response_nonce_counter := 1 }
     let replayFrame := exFrame (encrypt_frame 1 (natToBytesBE 16 1) [7] demoKey)
     let freshFrame := exFrame (encrypt_frame 1 (natToBytesBE 16 2) [] demoKey)
     let r1 := process_chunk dummyHash echoRespond id demoMaster conn replayFrame
     let r2 := process_chunk dummyHash echoRespond id demoMaster
       (r1.connOut.getD Conn.init) (r1.buf ++ freshFrame)
     replayFrame.length = 41 ∧
     r1.isMore = true ∧ r1.sent = [] ∧ r1.buf.length = 1 ∧
     r2.isClosed = true ∧ r2.sent = [] ∧
     (process_chunk dummyHash echoRespond id demoMaster boundConn replayFrame).sent.length = 1) := by
  decide

set_option maxRecDepth 40000 in
/-- Claim C6 (code bug): a frame failing AEAD authentication on a bound
connection is dropped, but the one-byte resynchronisation leaves 39 stale
bytes in the buffer; when the next validly-encrypted frame arrives the
misaligned device-id check closes the connection and the valid frame is
never processed or answered — the valid frame alone is answered, so the
termination is caused by the preceding bad frame. -/
theorem auth_failure_kills_connection :
    (let goodFrame := exFrame (encrypt_frame 1 (natToBytesBE 16 1) [] demoKey)
     let badFrame := corruptLast goodFrame
     let r1 := process_chunk dummyHash echoRespond id demoMaster boundConn badFrame
     let r2 := process_chunk dummyHash echoRespond id demoMaster
       (r1.connOut.getD Conn.init) (r1.buf ++ goodFrame)
     r1.isMore = true ∧ r1.sent = [] ∧ r1.buf.length = 39 ∧
     r2.isClosed = true ∧ r2.sent = [] ∧
     (process_chunk dummyHash echoRespond id demoMaster boundConn goodFrame).sent.length = 1) := by
  decide

/-- Connection state bound to device `d` with key `key`, tracker `t` and
outbound counter `c`. -/
def mkBound (d : Nat) (key : List Nat) (t : NonceTracker) (c : Nat) : Conn :=
  { device_id := some d, device_key := some key,
    nonce_tracker := t, response_nonce_counter := c }

lemma send_response_bound (hdlc : List Nat → List Nat) (d : Nat) (key : List Nat)
    (t : NonceTracker) (c : Nat) (r : List Nat) (hk : key.length = KEY_SIZE) :
    send_response hdlc (mkBound d key t c) r =
    (mkBound d key t (c + 1),
     some (natToBytesBE DEVICE_ID_SIZE d ++ natToBytesBE 16 (c + 1) ++
       asconEncrypt key (natToBytesBE 16 (c + 1)) (natToBytesBE DEVICE_ID_SIZE d) (hdlc r))) := by
  simp [send_response, mkBound,
    encrypt_frame_ok d (natToBytesBE 16 (c + 1)) (hdlc r) key (length_natToBytesBE 16 (c + 1)) hk]

lemma frame_nonce_slice (d : Nat) (nonce rest : List Nat) (hn : nonce.length = 16) :
    pySlice DEVICE_ID_SIZE (DEVICE_ID_SIZE + NONCE_SIZE)
      (natToBytesBE DEVICE_ID_SIZE d ++ nonce ++ rest) = nonce := by
  show ((natToBytesBE DEVICE_ID_SIZE d ++ nonce ++ rest).take 24).drop 8 = nonce
  rw [take_append_len (natToBytesBE DEVICE_ID_SIZE d ++ nonce) rest 24
      (by simp [length_natToBytesBE, hn, DEVICE_ID_SIZE]),
    drop_append_len _ _ 8 (by simp [length_natToBytesBE, DEVICE_ID_SIZE])]

lemma send_all_nonces (hdlc : List Nat → List Nat) (d : Nat) (key : List Nat)
    (hk : key.length = KEY_SIZE) (rs : List (List Nat)) :
    ∀ (t : NonceTracker) (c : Nat),
      ((send_all hdlc (mkBound d key t c) rs).2).length = rs.length ∧
      ∀ i (h : i < ((send_all hdlc (mkBound d key t c) rs).2).length),
        pySlice DEVICE_ID_SIZE (DEVICE_ID_SIZE + NONCE_SIZE)
          (((send_all hdlc (mkBound d key t c) rs).2).get ⟨i, h⟩) =
          natToBytesBE 16 (c + i + 1) := by
  induction rs with
  | nil =>
      intro t c
      exact ⟨rfl, fun i h => absurd h (by simp [send_all])⟩
  | cons r rest ih =>
      intro t c
      have hs : send_all hdlc (mkBound d key t c) (r :: rest) =
        ((send_all hdlc (mkBound d key t (c + 1)) rest).1,
         (natToBytesBE DEVICE_ID_SIZE d ++ natToBytesBE 16 (c + 1) ++
           asconEncrypt key (natToBytesBE 16 (c + 1)) (natToBytesBE DEVICE_ID_SIZE d) (hdlc r)) ::
         (send_all hdlc (mkBound d key t (c + 1)) rest).2) := by
        rw [send_all, send_response_bound hdlc d key t c r hk]
        rfl
      rw [hs]
      obtain ⟨ihlen, ihget⟩ := ih t (c + 1)
      refine ⟨by simp [ihlen], ?_⟩
      intro i h
      match i with
      | 0 =>
          exact frame_nonce_slice d _ _ (length_natToBytesBE 16 (c + 1))
      | Nat.succ j =>
          have hj : j < ((send_all hdlc (mkBound d key t (c + 1)) rest).2).length := by
            simpa using Nat.lt_of_succ_lt_succ h
          have hg := ihget j hj
          have hc : c + 1 + j + 1 = c + (j + 1) + 1 := by omega
          rw [hc] at hg
          exact hg

/-- Claim C8: on a connection bound with a 16-byte key and a fresh outbound
counter, every response is emitted, and the k-th outgoing frame (1-based)
carries the 16-byte big-endian encoding of k as its nonce: the counter starts
at 1 and increments by exactly 1 per outgoing frame. -/
theorem outbound_response_nonce_sequence (hdlc : List Nat → List Nat) (d : Nat)
    (key : List Nat) (t : NonceTracker) (rs : List (List Nat))
    (hk : key.length = KEY_SIZE) :
    ((send_all hdlc (mkBound d key t 0) rs).2).length = rs.length ∧
    ∀ i (h : i < ((send_all hdlc (mkBound d key t 0) rs).2).length),
      pySlice DEVICE_ID_SIZE (DEVICE_ID_SIZE + NONCE_SIZE)
        (((send_all hdlc (mkBound d key t 0) rs).2).get ⟨i, h⟩) =
        natToBytesBE 16 (i + 1) := by
  obtain ⟨hl, hg⟩ := send_all_nonces hdlc d key hk rs t 0
  refine ⟨hl, ?_⟩
  intro i h
  have hi := hg i h
  rwa [Nat.zero_add] at hi

/-- Witness for C8: one response on a freshly bound connection goes out with
nonce value 1. -/
theorem outbound_response_nonce_sequence_witness :
    pySlice DEVICE_ID_SIZE (DEVICE_ID_SIZE + NONCE_SIZE)
      (((send_all id (mkBound 1 demoKey (NonceTracker.init 64) 0) [[9]]).2).get
        ⟨0, by decide⟩) = natToBytesBE 16 1 :=
  (outbound_response_nonce_sequence id 1 demoKey (NonceTracker.init 64) [[9]]
    (by decide)).2 0 (by decide)

/-- Wire bound `ForwardResult.MAX_ERROR_LENGTH` from `firebase_client.py`
(the nanopb `ForwardResponse.error` field has `max_size:128`). -/
def MAX_ERROR_LENGTH : Nat := 120

/-- The `ForwardResult` dataclass; the error string is a list of characters
(Python `len` on `str` counts code points). -/
structure ForwardResult where
  success : Bool
  payload : List Nat
  http_status : Nat
  error : List Char
deriving DecidableEq

/-- Construction of a `ForwardResult`, including the `__post_init__`
truncation `self.error[: self.MAX_ERROR_LENGTH - 3] + "..."`. -/
def ForwardResult.make (success : Bool) (payload : List Nat) (http_status : Nat)
    (error : List Char) : ForwardResult :=
  { success := success, payload := payload, http_status := http_status,
    error :=
      if MAX_ERROR_LENGTH < error.length then
        error.take (MAX_ERROR_LENGTH - 3) ++ ['.', '.', '.']
      else error }

/-- Claim C9: an error string within the 120-character limit is stored
unchanged; a longer one is stored as a prefix of the original followed by the
three-character ellipsis marker, within the limit. -/
theorem forward_result_error_bound (success : Bool) (payload : List Nat)
    (http_status : Nat) (error : List Char) :
    (error.length ≤ MAX_ERROR_LENGTH →
      (ForwardResult.make success payload http_status error).error = error) ∧
    (MAX_ERROR_LENGTH < error.length →
      (ForwardResult.make success payload http_status error).error =
          error.take (MAX_ERROR_LENGTH - 3) ++ ['.', '.', '.'] ∧
        error.take (MAX_ERROR_LENGTH - 3) <+: error ∧
        (ForwardResult.make success payload http_status error).error.length ≤
          MAX_ERROR_LENGTH) := by
  constructor
  · intro h
    simp [ForwardResult.make, Nat.not_lt.2 h]
  · intro h
    have herr : (ForwardResult.make success payload http_status error).error =
        error.take (MAX_ERROR_LENGTH - 3) ++ ['.', '.', '.'] := by
      simp [ForwardResult.make, if_pos h]
    refine ⟨herr, List.take_prefix _ _, ?_⟩
    rw [herr]
    have hm : MAX_ERROR_LENGTH = 120 := rfl
    rw [hm] at h ⊢
    simp only [List.length_append, List.length_take, List.length_cons,
      List.length_nil]
    omega

/-- Witness for C9 at a 121-character error string. -/
theorem forward_result_error_bound_witness :
    (ForwardResult.make true [] 200 (List.replicate 121 'x')).error =
        (List.replicate 121 'x').take (MAX_ERROR_LENGTH - 3) ++ ['.', '.', '.'] ∧
      (List.replicate 121 'x').take (MAX_ERROR_LENGTH - 3) <+: List.replicate 121 'x' ∧
      (ForwardResult.make true [] 200 (List.replicate 121 'x')).error.length ≤
        MAX_ERROR_LENGTH :=
  (forward_result_error_bound true [] 200 (List.replicate 121 'x')).2 (by decide)

/-- Value of a single hexadecimal digit, or `none`. -/
def hexDigitVal (c : Char) : Option Nat :=
  if '0' ≤ c ∧ c ≤ '9' then some (c.toNat - 48)
  else if 'a' ≤ c ∧ c ≤ 'f' then some (c.toNat - 87)
  else if 'A' ≤ c ∧ c ≤ 'F' then some (c.toNat - 55)
  else none

/-- Embedding of `bytes.fromhex`: pairs of hex digits; `none` models the
`ValueError` raised on an odd-length or non-hex string (the whitespace
tolerance of the Python original is not used by the gateway CLI contract). -/
def bytes_fromhex : List Char → Option (List Nat)
  | [] => some []
  | [_] => none
  | c1 :: c2 :: rest =>
      match hexDigitVal c1, hexDigitVal c2, bytes_fromhex rest with
      | some hi, some lo, some bs => some ((hi * 16 + lo) :: bs)
      | _, _, _ => none

/-- Embedding of `KeyStore.__init__`: raises `ValueError` unless the master
key is exactly 16 bytes; otherwise the store holds the master key (and an
empty cache). -/
def KeyStore_new (master_key : List Nat) : Except String (List Nat) :=
  if master_key.length ≠ KEY_SIZE then
    Except.error "ValueError: Master key must be 16 bytes"
  else Except.ok master_key

/-- Python `str.rstrip("/")` as applied to the Firebase base URL. -/
def rstripSlash (s : String) : String :=
  String.mk ((s.toList.reverse.dropWhile (fun c => c = '/')).reverse)

/-- Embedding of the call `FirebaseClient(positional args)`:
`FirebaseClient.__init__(self, base_url, api_key, timeout=30.0)` requires at
least two positional arguments and raises `TypeError` otherwise; on success
it stores the stripped base URL and the API key (the timeout only configures
the HTTP library). The argument list is explicit so that Python arity errors
are represented. -/
def FirebaseClient_new (args : List String) : Except String (String × String) :=
  match args with
  | base_url :: api_key :: _ => Except.ok (rstripSlash base_url, api_key)
  | _ =>
      Except.error
        "TypeError: FirebaseClient.init missing required positional argument api_key"

/-- Embedding of `main()` in `main.py` up to server start: decode the
`--master-key` hex argument (a `ValueError` is caught and turns into exit
code 1, as does a wrong decoded length), construct the `KeyStore`, then
construct the `FirebaseClient` with the single argument `args.firebase_url`
as the source does. An `Except.error` is an exception propagating out of
`main` (the process dies with a traceback); `Except.ok` is the exit code,
with `ok 0` standing for the served-until-interrupted path. -/
def gateway_main (master_key_arg : String) (firebase_url : String) :
    Except String Nat :=
  match bytes_fromhex master_key_arg.toList with
  | none => Except.ok 1
  | some master_key =>
      if master_key.length ≠ 16 then Except.ok 1
      else
        match KeyStore_new master_key with
        | Except.error e => Except.error e
        | Except.ok _key_store =>
            match FirebaseClient_new [firebase_url] with
            | Except.error e => Except.error e
            | Except.ok _firebase_client => Except.ok 0

/-- Claim C4 (code bug): with a valid 32-hex-character master key, startup
does not complete — `main` constructs `FirebaseClient(args.firebase_url)`
without the required `api_key` argument, so `TypeError` is raised outside
both `try` blocks and the process dies before the server is constructed,
instead of running until interrupted. -/
theorem startup_crashes_on_firebase_client :
    gateway_main "00112233445566778899aabbccddeeff" "https://example.test" =
      Except.error
        "TypeError: FirebaseClient.init missing required positional argument api_key" := by
  rfl
